import Mathlib

/-!
Shallow embedding of the trading bot's risk-gated execution core.

Prices, fees and equity are modelled as exact rationals (`ℚ`); candle
timestamps and calendar dates are abstract natural numbers.  The
definitions below mirror, method by method, `src/core/backtester.py`,
`src/live/risk_manager.py`, `src/live/live_trader.py`,
`src/live/order_manager.py` and `src/live/execution.py`.
-/

/-- A candle row as consumed by `Backtester.run` (the columns it reads:
`timestamp`, `low`, `high`, `close`, `signal`); `date` stands for
`timestamp.date()`. -/
structure Candle where
  timestamp : ℕ
  date : ℕ
  low : ℚ
  high : ℚ
  close : ℚ
  signal : ℤ
deriving Repr, DecidableEq

/-- `BacktestParams` from `src/core/backtester.py`. -/
structure BacktestParams where
  initial_capital : ℚ := 10000
  trading_fee : ℚ := 1/1000
  slippage : ℚ := 1/2000
  risk_per_trade : ℚ := 1/100
  max_daily_loss : ℚ := 3/100
  max_open_trades : ℕ := 3
  circuit_breaker_dd : ℚ := 1/10
  tp_pct : ℚ := 3/1000
  sl_pct : ℚ := 3/1000
deriving Repr, DecidableEq

/-- `Position` from `src/core/backtester.py`. -/
structure Position where
  entry_time : ℕ
  entry_price : ℚ
  quantity : ℚ
  tp_price : ℚ
  sl_price : ℚ
  entry_fee : ℚ
deriving Repr, DecidableEq

/-- `Trade` from `src/core/backtester.py` (`side` is one of the strings
the source writes: "TP", "SL", "ĐÓNG"). -/
structure Trade where
  entry_time : ℕ
  exit_time : ℕ
  entry_price : ℚ
  exit_price : ℚ
  quantity : ℚ
  side : String
  pnl : ℚ
  pnl_pct : ℚ
  total_fee : ℚ
deriving Repr, DecidableEq

/-- The mutable state of a `Backtester` instance. -/
structure BtState where
  cash : ℚ
  equity : ℚ
  peak_equity : ℚ
  positions : List Position
  trades : List Trade
  equity_curve : List (ℕ × ℚ)
  circuit_breaker_active : Bool
  current_date : Option ℕ
  daily_pnl : ℚ
deriving Repr, DecidableEq

/-- `Backtester._reset`. -/
def initState (p : BacktestParams) : BtState :=
  { cash := p.initial_capital
    equity := p.initial_capital
    peak_equity := p.initial_capital
    positions := []
    trades := []
    equity_curve := []
    circuit_breaker_active := false
    current_date := none
    daily_pnl := 0 }

/-- `Backtester._update_daily_tracking`. -/
def updateDailyTracking (s : BtState) (date : ℕ) : BtState :=
  if s.current_date = none ∨ s.current_date ≠ some date then
    { s with current_date := some date, daily_pnl := 0 }
  else s

/-- The exit test of `Backtester._check_exits`: stop-loss
(`row["low"] <= pos.sl_price`) is tested before take-profit
(`row["high"] >= pos.tp_price`). -/
def exitCheck (c : Candle) (pos : Position) : Option (ℚ × String) :=
  if c.low ≤ pos.sl_price then some (pos.sl_price, "SL")
  else if pos.tp_price ≤ c.high then some (pos.tp_price, "TP")
  else none

/-- Processing of one position inside `Backtester._check_exits`: either the
position is kept, or it is closed (trade recorded, cash credited,
daily P&L updated). -/
def exitOne (p : BacktestParams) (c : Candle) (s : BtState) (pos : Position) : BtState :=
  match exitCheck c pos with
  | none => { s with positions := s.positions ++ [pos] }
  | some (price, side) =>
      let exit_price := price * (1 - p.slippage)
      let exit_fee := exit_price * pos.quantity * p.trading_fee
      let gross_pnl := (exit_price - pos.entry_price) * pos.quantity
      let net_pnl := gross_pnl - pos.entry_fee - exit_fee
      let trade : Trade :=
        { entry_time := pos.entry_time
          exit_time := c.timestamp
          entry_price := pos.entry_price
          exit_price := exit_price
          quantity := pos.quantity
          side := side
          pnl := net_pnl
          pnl_pct := net_pnl / (pos.entry_price * pos.quantity) * 100
          total_fee := pos.entry_fee + exit_fee }
      { s with trades := s.trades ++ [trade]
               cash := s.cash + exit_price * pos.quantity - exit_fee
               daily_pnl := s.daily_pnl + net_pnl }

/-- `Backtester._check_exits`: every open position is tested in order; the
kept ones remain, in order. -/
def checkExits (p : BacktestParams) (c : Candle) (s : BtState) : BtState :=
  s.positions.foldl (exitOne p c) { s with positions := [] }

/-- `Backtester._check_circuit_breaker`. -/
def checkCircuitBreaker (p : BacktestParams) (s : BtState) : BtState :=
  if 0 < s.peak_equity then
    let drawdown := (s.peak_equity - s.equity) / s.peak_equity
    if p.circuit_breaker_dd ≤ drawdown then
      if ¬ s.circuit_breaker_active then { s with circuit_breaker_active := true }
      else s
    else s
  else s

/-- `Backtester._can_open_trade`. -/
def canOpenTrade (p : BacktestParams) (s : BtState) : Bool :=
  if s.circuit_breaker_active then false
  else if p.max_open_trades ≤ s.positions.length then false
  else if 0 < s.equity ∧ p.max_daily_loss ≤ |min 0 s.daily_pnl| / s.equity then false
  else true

/-- The tail of `Backtester._try_open_position`: deduct the total cost from
cash and append the new position. -/
def openPosition (c : Candle) (s : BtState)
    (entry_price tp_price sl_price quantity entry_fee total_cost : ℚ) : BtState :=
  { s with cash := s.cash - total_cost
           positions := s.positions ++
             [{ entry_time := c.timestamp
                entry_price := entry_price
                quantity := quantity
                tp_price := tp_price
                sl_price := sl_price
                entry_fee := entry_fee }] }

/-- `Backtester._try_open_position`. -/
def tryOpenPosition (p : BacktestParams) (c : Candle) (s : BtState) : BtState :=
  if ¬ canOpenTrade p s then s
  else
    let entry_price := c.close * (1 + p.slippage)
    let tp_price := entry_price * (1 + p.tp_pct)
    let sl_price := entry_price * (1 - p.sl_pct)
    let risk_amount := s.equity * p.risk_per_trade
    let sl_distance := entry_price - sl_price
    if sl_distance ≤ 0 then s
    else
      let quantity := risk_amount / sl_distance
      let cost := entry_price * quantity
      let entry_fee := cost * p.trading_fee
      let total_cost := cost + entry_fee
      if s.cash < total_cost then
        let quantity := s.cash / (entry_price * (1 + p.trading_fee))
        if quantity ≤ 0 then s
        else
          let cost := entry_price * quantity
          let entry_fee := cost * p.trading_fee
          let total_cost := cost + entry_fee
          openPosition c s entry_price tp_price sl_price quantity entry_fee total_cost
      else openPosition c s entry_price tp_price sl_price quantity entry_fee total_cost

/-- Open-position value `sum(pos.quantity * price)`. -/
def positionValue (positions : List Position) (price : ℚ) : ℚ :=
  (positions.map (fun pos => pos.quantity * price)).sum

/-- `Backtester._update_equity`. -/
def updateEquity (c : Candle) (s : BtState) : BtState :=
  let equity := s.cash + positionValue s.positions c.close
  { s with equity := equity, peak_equity := max s.peak_equity equity }

/-- One iteration of the candle loop of `Backtester.run`: daily roll, exit
check, circuit-breaker check, signal-gated open, mark-to-market, snapshot. -/
def stepCandle (p : BacktestParams) (s : BtState) (c : Candle) : BtState :=
  let s1 := updateDailyTracking s c.date
  let s2 := checkExits p c s1
  let s3 := checkCircuitBreaker p s2
  let s4 := if c.signal = 1 then tryOpenPosition p c s3 else s3
  let s5 := updateEquity c s4
  { s5 with equity_curve := s5.equity_curve ++ [(c.timestamp, s5.equity)] }

/-- The candle loop of `Backtester.run` from an arbitrary state. -/
def runCandles (p : BacktestParams) (s : BtState) (cs : List Candle) : BtState :=
  cs.foldl (stepCandle p) s

/-- Closing of a single remaining position inside
`Backtester._close_all_positions`. -/
def closeOne (p : BacktestParams) (c : Candle) (s : BtState) (pos : Position) : BtState :=
  let exit_price := c.close * (1 - p.slippage)
  let exit_fee := exit_price * pos.quantity * p.trading_fee
  let gross_pnl := (exit_price - pos.entry_price) * pos.quantity
  let net_pnl := gross_pnl - pos.entry_fee - exit_fee
  let trade : Trade :=
    { entry_time := pos.entry_time
      exit_time := c.timestamp
      entry_price := pos.entry_price
      exit_price := exit_price
      quantity := pos.quantity
      side := "ĐÓNG"
      pnl := net_pnl
      pnl_pct := net_pnl / (pos.entry_price * pos.quantity) * 100
      total_fee := pos.entry_fee + exit_fee }
  { s with trades := s.trades ++ [trade]
           cash := s.cash + exit_price * pos.quantity - exit_fee }

/-- `Backtester._close_all_positions`: close every remaining position at the
final candle's close, clear the list, and set equity to cash. -/
def closeAllPositions (p : BacktestParams) (c : Candle) (s : BtState) : BtState :=
  let s2 := s.positions.foldl (closeOne p c) s
  { s2 with positions := [], equity := s2.cash }

/-- `Backtester.run`: reset, loop over the candles, then force-close at the
last candle when the data is non-empty. -/
def runBacktest (p : BacktestParams) (cs : List Candle) : BtState :=
  let s := runCandles p (initState p) cs
  match cs.getLast? with
  | some c => closeAllPositions p c s
  | none => s

/-- `stepCandle` with the buy-signal branch removed: what one loop
iteration of `Backtester.run` does when no position open can occur. -/
def stepCandleNoOpen (p : BacktestParams) (s : BtState) (c : Candle) : BtState :=
  let s1 := updateDailyTracking s c.date
  let s2 := checkExits p c s1
  let s3 := checkCircuitBreaker p s2
  let s5 := updateEquity c s3
  { s5 with equity_curve := s5.equity_curve ++ [(c.timestamp, s5.equity)] }

/-! ### Configuration constants (`src/config.py`) -/

namespace config

def TRADING_FEE : ℚ := 1/1000

def SLIPPAGE : ℚ := 1/2000

def RISK_PER_TRADE : ℚ := 1/100

def MAX_DAILY_LOSS : ℚ := 3/100

def MAX_OPEN_TRADES : ℕ := 3

def CIRCUIT_BREAKER_DD : ℚ := 1/10

def TP_PCT : ℚ := 3/1000

def SL_PCT : ℚ := 3/1000

def EMA_FAST : ℕ := 9

def EMA_SLOW : ℕ := 21

def INITIAL_CAPITAL : ℚ := 10000

end config

/-- Python's `x or d` applied to an optional rational constructor argument:
`None` and `0` are falsy, so both select the default `d`. -/
def pyOrQ (x : Option ℚ) (d : ℚ) : ℚ :=
  match x with
  | none => d
  | some v => if v = 0 then d else v

/-- Python's `x or d` applied to an optional integer constructor argument. -/
def pyOrN (x : Option ℕ) (d : ℕ) : ℕ :=
  match x with
  | none => d
  | some v => if v = 0 then d else v

/-! ### `RiskManager` (`src/live/risk_manager.py`) -/

/-- The state of a `RiskManager` instance (configuration fields fixed at
construction plus the mutable tracking fields). -/
structure RMState where
  initial_capital : ℚ
  risk_per_trade : ℚ
  max_daily_loss : ℚ
  max_open_trades : ℕ
  circuit_breaker_dd : ℚ
  current_equity : ℚ
  peak_equity : ℚ
  open_trade_count : ℕ
  circuit_breaker_active : Bool
  daily_pnl : ℚ
  current_date : Option ℕ
  daily_start_equity : ℚ
deriving Repr, DecidableEq

/-- `RiskManager.__init__`: every argument is defaulted with `or`, so a
`None` or zero argument selects the `config` value. -/
def rmInit (initial_capital risk_per_trade max_daily_loss : Option ℚ)
    (max_open_trades : Option ℕ) (circuit_breaker_dd : Option ℚ) : RMState :=
  let ic := pyOrQ initial_capital config.INITIAL_CAPITAL
  { initial_capital := ic
    risk_per_trade := pyOrQ risk_per_trade config.RISK_PER_TRADE
    max_daily_loss := pyOrQ max_daily_loss config.MAX_DAILY_LOSS
    max_open_trades := pyOrN max_open_trades config.MAX_OPEN_TRADES
    circuit_breaker_dd := pyOrQ circuit_breaker_dd config.CIRCUIT_BREAKER_DD
    current_equity := ic
    peak_equity := ic
    open_trade_count := 0
    circuit_breaker_active := false
    daily_pnl := 0
    current_date := none
    daily_start_equity := ic }

/-- `RiskManager._check_circuit_breaker`. -/
def rmCheckCircuitBreaker (rm : RMState) : RMState :=
  if rm.peak_equity ≤ 0 then rm
  else
    let drawdown := (rm.peak_equity - rm.current_equity) / rm.peak_equity
    if rm.circuit_breaker_dd ≤ drawdown ∧ ¬ rm.circuit_breaker_active then
      { rm with circuit_breaker_active := true }
    else rm

/-- `RiskManager.update_equity`. -/
def rmUpdateEquity (new_equity : ℚ) (rm : RMState) : RMState :=
  rmCheckCircuitBreaker
    { rm with current_equity := new_equity
              peak_equity := max rm.peak_equity new_equity }

/-- `RiskManager.record_trade_pnl`. -/
def rmRecordTradePnl (pnl : ℚ) (rm : RMState) : RMState :=
  { rm with daily_pnl := rm.daily_pnl + pnl }

/-- `RiskManager.trade_opened`. -/
def rmTradeOpened (rm : RMState) : RMState :=
  { rm with open_trade_count := rm.open_trade_count + 1 }

/-- `RiskManager.trade_closed` (`max(0, count - 1)`, which is ℕ
subtraction). -/
def rmTradeClosed (rm : RMState) : RMState :=
  { rm with open_trade_count := rm.open_trade_count - 1 }

/-- `RiskManager._update_daily_tracking`, with the wall-clock UTC date
passed in as `today`. -/
def rmUpdateDailyTracking (today : ℕ) (rm : RMState) : RMState :=
  if rm.current_date = none ∨ rm.current_date ≠ some today then
    { rm with current_date := some today
              daily_pnl := 0
              daily_start_equity := rm.current_equity }
  else rm

/-- `RiskManager.can_trade`, returning both the verdict and the state
mutated by the embedded `_update_daily_tracking` call.  Note the daily-loss
test divides by `_daily_start_equity`. -/
def rmCanTradeS (today : ℕ) (rm : RMState) : Bool × RMState :=
  let rm1 := rmUpdateDailyTracking today rm
  (if rm1.circuit_breaker_active then false
   else if rm1.max_open_trades ≤ rm1.open_trade_count then false
   else if 0 < rm1.daily_start_equity ∧
     rm1.max_daily_loss ≤ |min 0 rm1.daily_pnl| / rm1.daily_start_equity then false
   else true, rm1)

/-- The Boolean verdict of `RiskManager.can_trade`. -/
def rmCanTrade (today : ℕ) (rm : RMState) : Bool :=
  (rmCanTradeS today rm).1

/-- `RiskManager.calculate_position_size`.  The stop distance is
`abs(entry_price - sl_price)`, and the result is clamped so that the cost
stays within 95% of current equity. -/
def rmCalcPositionSize (rm : RMState) (entry_price sl_price : ℚ) : ℚ :=
  let risk_amount := rm.current_equity * rm.risk_per_trade
  let sl_distance := |entry_price - sl_price|
  if sl_distance ≤ 0 then 0
  else
    let quantity := risk_amount / sl_distance
    let cost := quantity * entry_price
    if rm.current_equity * (95/100) < cost then
      rm.current_equity * (95/100) / entry_price
    else quantity

/-- The admission skeleton of `OrderManager.open_position`
(`src/live/order_manager.py`): the open is attempted only when
`RiskManager.can_trade()` passes, and a successfully filled venue order
records exactly one additional open trade via `RiskManager.trade_opened`. -/
def rmOpenAttempt (today : ℕ) (rm : RMState) (orderFilled : Bool) : RMState :=
  let pair := rmCanTradeS today rm
  if pair.1 then (if orderFilled then rmTradeOpened pair.2 else pair.2)
  else pair.2

/-! ### `LiveTrader` (`src/live/live_trader.py`) -/

/-- An open-position record of `LiveTrader` (the dict built in
`_open_position`). -/
structure LTPosition where
  pid : String
  entry_price : ℚ
  quantity : ℚ
  tp_price : ℚ
  sl_price : ℚ
  entry_time : ℕ
  order_id : String
deriving Repr, DecidableEq

/-- A completed-trade record of `LiveTrader` (the dict built in
`_close_position`); only the fields relevant here are kept. -/
structure LTTradeRec where
  tid : String
  reason : String
  pnl : ℚ
deriving Repr, DecidableEq

/-- The trading state of a `LiveTrader` instance. -/
structure LTState where
  positions : List LTPosition
  trade_history : List LTTradeRec
  initial_equity : ℚ
  current_equity : ℚ
  peak_equity : ℚ
  daily_pnl : ℚ
  daily_date : Option ℕ
  circuit_breaker : Bool
deriving Repr, DecidableEq

/-- The parameter fields set by `LiveTrader.__init__`, each defaulted
with `or` against the `config` value. -/
structure LTParams where
  ema_fast : ℕ
  ema_slow : ℕ
  tp_pct : ℚ
  sl_pct : ℚ
deriving Repr, DecidableEq

/-- The parameter defaulting of `LiveTrader.__init__`. -/
def ltInitParams (ema_fast ema_slow : Option ℕ) (tp_pct sl_pct : Option ℚ) : LTParams :=
  { ema_fast := pyOrN ema_fast config.EMA_FAST
    ema_slow := pyOrN ema_slow config.EMA_SLOW
    tp_pct := pyOrQ tp_pct config.TP_PCT
    sl_pct := pyOrQ sl_pct config.SL_PCT }

/-- `LiveTrader._can_trade`: the daily-loss test divides by the current
equity. -/
def ltCanTrade (t : LTState) : Bool :=
  if t.circuit_breaker then false
  else if config.MAX_OPEN_TRADES ≤ t.positions.length then false
  else if 0 < t.current_equity ∧
    config.MAX_DAILY_LOSS ≤ |min 0 t.daily_pnl| / t.current_equity then false
  else true

/-- The exit test of `LiveTrader._check_tp_sl` for one position: take-profit
(`last_price >= tp_price`) is tested before stop-loss
(`last_price <= sl_price`). -/
def ltTpSlReason (last_price : ℚ) (pos : LTPosition) : Option String :=
  if pos.tp_price ≤ last_price then some "TP"
  else if last_price ≤ pos.sl_price then some "SL"
  else none

/-- The exit test of `OrderManager.check_tp_sl` for one open position:
take-profit is likewise tested before stop-loss. -/
def omTpSlReason (current_price : ℚ) (pos : LTPosition) : Option String :=
  if pos.tp_price ≤ current_price then some "TP"
  else if current_price ≤ pos.sl_price then some "SL"
  else none

/-- The JSON state document written by `LiveTrader._save_state`. -/
structure LTStateDoc where
  positions : List LTPosition
  initial_equity : ℚ
  peak_equity : ℚ
  daily_pnl : ℚ
  daily_date : Option ℕ
  circuit_breaker : Bool
  trade_count : ℕ
deriving Repr, DecidableEq

/-- `LiveTrader._save_state`. -/
def ltSaveState (t : LTState) : LTStateDoc :=
  { positions := t.positions
    initial_equity := t.initial_equity
    peak_equity := t.peak_equity
    daily_pnl := t.daily_pnl
    daily_date := t.daily_date
    circuit_breaker := t.circuit_breaker
    trade_count := t.trade_history.length }

/-- `LiveTrader._load_state`: the fields stored in the state document are
applied onto the trader's state (`trade_count` is not read back). -/
def ltLoadState (t : LTState) (doc : LTStateDoc) : LTState :=
  { t with positions := doc.positions
           initial_equity := doc.initial_equity
           peak_equity := doc.peak_equity
           daily_pnl := doc.daily_pnl
           daily_date := doc.daily_date
           circuit_breaker := doc.circuit_breaker }

/-! ### `BinanceConnector.place_market_order` (`src/live/execution.py`) -/

/-- The venue's response to one order attempt: a successful order result, a
`BinanceAPIException` carrying an error code, or a
`BinanceRequestException` (network/request failure). -/
inductive VenueOutcome where
  | success : VenueOutcome
  | apiError : ℤ → VenueOutcome
  | requestError : VenueOutcome
deriving Repr, DecidableEq

/-- The permanent (never-retried) error codes of `place_market_order`:
`e.code in (-2010, -1013, -1111)` — insufficient balance, invalid
quantity/price filter, invalid quantity precision. -/
def permanentCodes : List ℤ := [-2010, -1013, -1111]

/-- `BinanceConnector.MAX_RETRIES`. -/
def MAX_RETRIES : ℕ := 3

/-- `BinanceConnector.RETRY_DELAY_BASE` (seconds; the delay before retry
`attempt + 1` is `RETRY_DELAY_BASE ** attempt`). -/
def RETRY_DELAY_BASE : ℕ := 2

/-- Observable outcome of `place_market_order`: the returned value or the
propagated exception, the number of venue calls actually made, and the
backoff delays slept between calls. -/
structure PlaceResult where
  result : Except VenueOutcome ℕ
  attempts : ℕ
  delays : List ℕ
deriving Repr

/-- The retry loop of `BinanceConnector.place_market_order`
(`for attempt in range(1, MAX_RETRIES + 1)`), with the venue's response to
the i-th call given by `outcome i`.  `fuel` is the number of remaining loop
iterations (`MAX_RETRIES + 1 - attempt` at every call); a successful call
returns at once, a permanent API error propagates at once, and transient
errors sleep `RETRY_DELAY_BASE ^ attempt` and retry while `attempt <
MAX_RETRIES`, propagating once the attempts are exhausted. -/
def placeLoop (outcome : ℕ → VenueOutcome) : ℕ → ℕ → PlaceResult
  | 0, _ => ⟨Except.error VenueOutcome.requestError, 0, []⟩
  | fuel + 1, attempt =>
    match outcome attempt with
    | VenueOutcome.success => ⟨Except.ok attempt, 1, []⟩
    | VenueOutcome.apiError code =>
        if code ∈ permanentCodes then
          ⟨Except.error (VenueOutcome.apiError code), 1, []⟩
        else if attempt < MAX_RETRIES then
          let r := placeLoop outcome fuel (attempt + 1)
          ⟨r.result, r.attempts + 1, RETRY_DELAY_BASE ^ attempt :: r.delays⟩
        else ⟨Except.error (VenueOutcome.apiError code), 1, []⟩
    | VenueOutcome.requestError =>
        if attempt < MAX_RETRIES then
          let r := placeLoop outcome fuel (attempt + 1)
          ⟨r.result, r.attempts + 1, RETRY_DELAY_BASE ^ attempt :: r.delays⟩
        else ⟨Except.error VenueOutcome.requestError, 1, []⟩

/-- `BinanceConnector.place_market_order` run against a venue whose
response to the i-th call is `outcome i`. -/
def place_market_order (outcome : ℕ → VenueOutcome) : PlaceResult :=
  placeLoop outcome MAX_RETRIES 1

/-- A venue call outcome is transient (retryable) when it is a request
failure or an API error whose code is not permanent. -/
def isTransient (v : VenueOutcome) : Bool :=
  match v with
  | VenueOutcome.success => false
  | VenueOutcome.apiError code => ¬ code ∈ permanentCodes
  | VenueOutcome.requestError => true

/-! ### Concrete scenario fixtures -/

/-- Parameters for Scenario B (claim C7): 10% circuit-breaker threshold,
no fees or slippage, half the equity risked per trade, a wide stop so the
losing position stays open. -/
def p7 : BacktestParams :=
  { initial_capital := 10000, trading_fee := 0, slippage := 0, risk_per_trade := 1/2,
    max_daily_loss := 1, max_open_trades := 3, circuit_breaker_dd := 1/10,
    tp_pct := 1/10, sl_pct := 1/2 }

/-- Scenario B candle 1: a buy signal at close 100. -/
def c71 : Candle := ⟨1, 0, 100, 100, 100, 1⟩

/-- Scenario B candle 2: price falls to 89, taking equity from 10000
to 8900 at mark-to-market. -/
def c72 : Candle := ⟨2, 0, 89, 89, 89, 0⟩

/-- Scenario B candle 3: price stays at 89. -/
def c73 : Candle := ⟨3, 0, 89, 89, 89, 0⟩

/-- A fresh `RiskManager` state with equity 10000 and 1% risk per trade
(the Scenario A configuration). -/
def rmScenario : RMState :=
  { initial_capital := 10000, risk_per_trade := 1/100, max_daily_loss := 3/100,
    max_open_trades := 3, circuit_breaker_dd := 1/10, current_equity := 10000,
    peak_equity := 10000, open_trade_count := 0, circuit_breaker_active := false,
    daily_pnl := 0, current_date := none, daily_start_equity := 10000 }

/-- Parameters for Scenario A (claim C4) on the backtest path: no fee, no
slippage, 1% risk per trade, 1% stop so that a close of 100 gives entry
100 and stop 99. -/
def pA : BacktestParams :=
  { initial_capital := 10000, trading_fee := 0, slippage := 0, risk_per_trade := 1/100,
    max_daily_loss := 3/100, max_open_trades := 3, circuit_breaker_dd := 1/10,
    tp_pct := 1/100, sl_pct := 1/100 }

/-- Scenario A candle: one buy signal at close 100. -/
def cA : Candle := ⟨1, 0, 100, 100, 100, 1⟩

/-- A `RiskManager` state (claim C5) whose day started at equity 20000 and
whose current equity is 10000, with a 350 USD loss booked today: 1.75% of
the day-start equity but 3.5% of current equity. -/
def rm5 : RMState :=
  { initial_capital := 20000, risk_per_trade := 1/100, max_daily_loss := 3/100,
    max_open_trades := 3, circuit_breaker_dd := 1/10, current_equity := 10000,
    peak_equity := 20000, open_trade_count := 0, circuit_breaker_active := false,
    daily_pnl := -350, current_date := some 0, daily_start_equity := 20000 }

/-- A backtester state for Scenario E (claim C5): equity 10000 with a
same-day loss of 350 (3.5%). -/
def sE : BtState :=
  { cash := 10000, equity := 10000, peak_equity := 10350, positions := [],
    trades := [], equity_curve := [], circuit_breaker_active := false,
    current_date := some 0, daily_pnl := -350 }

/-- Well-formed backtest parameters: fee and slippage are fractions in
[0, 1], risk per trade and TP/SL percentages are nonnegative, the SL
percentage is at most 1, and the initial capital is nonnegative. -/
def GoodParams (p : BacktestParams) : Prop :=
  0 ≤ p.trading_fee ∧ p.trading_fee ≤ 1 ∧ 0 ≤ p.slippage ∧ p.slippage ≤ 1 ∧
  0 ≤ p.risk_per_trade ∧ 0 ≤ p.tp_pct ∧ 0 ≤ p.sl_pct ∧ p.sl_pct ≤ 1 ∧
  0 ≤ p.initial_capital

/-- A well-formed open position: nonnegative quantity and nonnegative
TP/SL levels. -/
def PosOk (pos : Position) : Prop :=
  0 ≤ pos.quantity ∧ 0 ≤ pos.tp_price ∧ 0 ≤ pos.sl_price

/-- The numeric state invariant of the backtester: nonnegative cash and
equity, and every open position well formed. -/
def BtInv (s : BtState) : Prop :=
  0 ≤ s.cash ∧ 0 ≤ s.equity ∧ ∀ q ∈ s.positions, PosOk q

/-! ## Claims -/

/-- C9: for every reachable live-trader state, writing the state document
(`_save_state`) and reading it back (`_load_state`) reproduces identical
open positions, peak_equity, daily_pnl, daily_date and circuit-breaker
flag. -/
theorem c9_state_round_trip (t0 s : LTState) :
    (ltLoadState t0 (ltSaveState s)).positions = s.positions ∧
    (ltLoadState t0 (ltSaveState s)).peak_equity = s.peak_equity ∧
    (ltLoadState t0 (ltSaveState s)).daily_pnl = s.daily_pnl ∧
    (ltLoadState t0 (ltSaveState s)).daily_date = s.daily_date ∧
    (ltLoadState t0 (ltSaveState s)).circuit_breaker = s.circuit_breaker :=
  ⟨rfl, rfl, rfl, rfl, rfl⟩

/-- C3 counterexample: a live position whose take-profit (90) lies below
and stop-loss (110) above the current price 100 satisfies both of the live
exit conditions, yet `LiveTrader._check_tp_sl` resolves the exit to TP,
not SL — the live path tests take-profit first, contradicting the claim
that stop-loss is tested first in the live exit-check path as well. -/
theorem c3_counterexample :
    (let pos : LTPosition := ⟨"POS_0001", 100, 1, 90, 110, 0, ""⟩
     pos.tp_price ≤ 100 ∧ (100:ℚ) ≤ pos.sl_price ∧
     ltTpSlReason 100 pos = some "TP" ∧ (some "TP" : Option String) ≠ some "SL") := by
  refine ⟨by norm_num, by norm_num, by norm_num [ltTpSlReason], by decide⟩

/-- C4 counterexample: with equity 10000 and 1% risk per trade,
`RiskManager.calculate_position_size(100, 101)` has `entry − sl = −1 ≤ 0`,
yet it returns `95` (the 95%-of-equity clamp of `100/|−1| = 100`), not `0`:
the live sizing path takes the absolute stop distance instead of rejecting
a non-positive one. -/
theorem c4_counterexample :
    (100:ℚ) - 101 ≤ 0 ∧
    rmCalcPositionSize rmScenario 100 101 = 95 ∧
    rmCalcPositionSize rmScenario 100 101 ≠ 0 := by
  refine ⟨by norm_num, ?_, ?_⟩ <;>
    norm_num [rmCalcPositionSize, rmScenario, abs_of_nonpos]

/-- C5 counterexample: a `RiskManager` whose day started at equity 20000,
with current equity 10000 and a 350 USD loss today, admits a trade
(`can_trade` divides the loss by the day-start equity: 1.75% < 3%), even
though the loss is 3.5% ≥ 3% of the current equity — so the live
RiskManager daily-loss test does not use current equity as denominator. -/
theorem c5_counterexample :
    rmCanTrade 0 rm5 = true ∧
    rm5.max_daily_loss ≤ |min 0 rm5.daily_pnl| / rm5.current_equity := by
  constructor
  · have h : rmUpdateDailyTracking 0 rm5 = rm5 := rfl
    simp only [rmCanTrade, rmCanTradeS, h]
    norm_num [rm5]
  · norm_num [rm5]

/-- C7 counterexample: in Scenario B (threshold 10%, peak 10000), equity
first reaches ≤ 9000 on the second candle (10000 → 8900), but the step
order evaluates the circuit breaker before mark-to-market, so the breaker
is still inactive after that candle and trips only on the third. -/
theorem c7_counterexample :
    (runCandles p7 (initState p7) [c71]).equity = 10000 ∧
    (runCandles p7 (initState p7) [c71, c72]).equity = 8900 ∧
    (runCandles p7 (initState p7) [c71, c72]).peak_equity = 10000 ∧
    (runCandles p7 (initState p7) [c71, c72]).circuit_breaker_active = false ∧
    (runCandles p7 (initState p7) [c71, c72, c73]).circuit_breaker_active = true := by
  norm_num [runCandles, stepCandle, updateDailyTracking, checkExits, exitOne, exitCheck,
    checkCircuitBreaker, canOpenTrade, tryOpenPosition, openPosition, positionValue,
    updateEquity, initState, p7, c71, c72, c73, List.foldl]

/-- C10: `RiskManager.__init__` and `LiveTrader.__init__` default their
arguments with Python's `or`, so an argument equal to 0 (or 0.0) is
silently replaced by the config default; consequently max_open_trades,
risk_per_trade and tp_pct can never be configured to 0 through these
constructors, and only a non-zero argument overrides the config value. -/
theorem c10_or_defaults :
    (rmInit (some 0) (some 0) (some 0) (some 0) (some 0) =
      rmInit none none none none none) ∧
    (ltInitParams (some 0) (some 0) (some 0) (some 0) =
      ltInitParams none none none none) ∧
    (∀ a b c d e, (rmInit a b c d e).max_open_trades ≠ 0) ∧
    (∀ a b c d e, (rmInit a b c d e).risk_per_trade ≠ 0) ∧
    (∀ a b c d, (ltInitParams a b c d).tp_pct ≠ 0) ∧
    (∀ a b c e x, x ≠ 0 → (rmInit a b c (some x) e).max_open_trades = x) := by
  refine ⟨by norm_num [rmInit, pyOrQ, pyOrN], by norm_num [ltInitParams, pyOrQ, pyOrN],
    ?_, ?_, ?_, ?_⟩
  · intro a b c d e
    cases d with
    | none => simp [rmInit, pyOrN, config.MAX_OPEN_TRADES]
    | some v =>
        simp only [rmInit, pyOrN]
        split
        · simp [config.MAX_OPEN_TRADES]
        · assumption
  · intro a b c d e
    cases b with
    | none => norm_num [rmInit, pyOrQ, config.RISK_PER_TRADE]
    | some v =>
        simp only [rmInit, pyOrQ]
        split
        · norm_num [config.RISK_PER_TRADE]
        · assumption
  · intro a b c d
    cases c with
    | none => norm_num [ltInitParams, pyOrQ, config.TP_PCT]
    | some v =>
        simp only [ltInitParams, pyOrQ]
        split
        · norm_num [config.TP_PCT]
        · assumption
  · intro a b c e x hx
    simp [rmInit, pyOrN, hx]

/-- Witness for C10: passing the non-zero value 5 for max_open_trades
overrides the config default. -/
theorem c10_or_defaults_witness :
    (5:ℕ) ≠ 0 ∧ (rmInit none none none (some 5) none).max_open_trades = 5 :=
  ⟨by decide, c10_or_defaults.2.2.2.2.2 none none none none 5 (by decide)⟩

/-- C8: retry semantics of `BinanceConnector.place_market_order`: a
success returns at once; a permanent API rejection (codes -2010, -1013,
-1111) propagates immediately, with no retry, no backoff sleep and no
further order attempt; a transient failure (request error or any other
API error code) is retried after an exponential backoff delay
`2 ^ attempt`, up to MAX_RETRIES = 3 attempts in total, and the error
propagates only once the attempts are exhausted. -/
theorem c8_retry_policy (outcome : ℕ → VenueOutcome) :
    (outcome 1 = VenueOutcome.success →
      place_market_order outcome = ⟨Except.ok 1, 1, []⟩) ∧
    (∀ code, outcome 1 = VenueOutcome.apiError code → code ∈ permanentCodes →
      place_market_order outcome =
        ⟨Except.error (VenueOutcome.apiError code), 1, []⟩) ∧
    (∀ code, isTransient (outcome 1) = true → outcome 2 = VenueOutcome.apiError code →
      code ∈ permanentCodes →
      place_market_order outcome =
        ⟨Except.error (VenueOutcome.apiError code), 2, [2]⟩) ∧
    (isTransient (outcome 1) = true → outcome 2 = VenueOutcome.success →
      place_market_order outcome = ⟨Except.ok 2, 2, [2]⟩) ∧
    (isTransient (outcome 1) = true → isTransient (outcome 2) = true →
      outcome 3 = VenueOutcome.success →
      place_market_order outcome = ⟨Except.ok 3, 3, [2, 4]⟩) ∧
    (isTransient (outcome 1) = true → isTransient (outcome 2) = true →
      isTransient (outcome 3) = true →
      (place_market_order outcome).attempts = 3 ∧
      (place_market_order outcome).delays = [2, 4] ∧
      ∃ e, (place_market_order outcome).result = Except.error e ∧
        isTransient e = true) := by
  refine ⟨?_, ?_, ?_, ?_, ?_, ?_⟩
  · intro h1
    simp [place_market_order, MAX_RETRIES, placeLoop, h1]
  · intro code h1 hperm
    simp [place_market_order, MAX_RETRIES, placeLoop, h1, hperm]
  · intro code h1 h2 hperm
    cases o1 : outcome 1 with
    | success => rw [o1] at h1; simp [isTransient] at h1
    | apiError c1 =>
        rw [o1] at h1; simp [isTransient] at h1
        simp [place_market_order, MAX_RETRIES, placeLoop, o1, h1, h2, hperm,
          RETRY_DELAY_BASE]
    | requestError =>
        simp [place_market_order, MAX_RETRIES, placeLoop, o1, h2, hperm,
          RETRY_DELAY_BASE]
  · intro h1 h2
    cases o1 : outcome 1 with
    | success => rw [o1] at h1; simp [isTransient] at h1
    | apiError c1 =>
        rw [o1] at h1; simp [isTransient] at h1
        simp [place_market_order, MAX_RETRIES, placeLoop, o1, h1, h2, RETRY_DELAY_BASE]
    | requestError =>
        simp [place_market_order, MAX_RETRIES, placeLoop, o1, h2, RETRY_DELAY_BASE]
  · intro h1 h2 h3
    cases o1 : outcome 1 with
    | success => rw [o1] at h1; simp [isTransient] at h1
    | apiError c1 =>
        rw [o1] at h1; simp [isTransient] at h1
        cases o2 : outcome 2 with
        | success => rw [o2] at h2; simp [isTransient] at h2
        | apiError c2 =>
            rw [o2] at h2; simp [isTransient] at h2
            simp [place_market_order, MAX_RETRIES, placeLoop, o1, o2, h1, h2, h3,
              RETRY_DELAY_BASE]
        | requestError =>
            simp [place_market_order, MAX_RETRIES, placeLoop, o1, o2, h1, h3,
              RETRY_DELAY_BASE]
    | requestError =>
        cases o2 : outcome 2 with
        | success => rw [o2] at h2; simp [isTransient] at h2
        | apiError c2 =>
            rw [o2] at h2; simp [isTransient] at h2
            simp [place_market_order, MAX_RETRIES, placeLoop, o1, o2, h2, h3,
              RETRY_DELAY_BASE]
        | requestError =>
            simp [place_market_order, MAX_RETRIES, placeLoop, o1, o2, h3,
              RETRY_DELAY_BASE]
  · intro h1 h2 h3
    cases o1 : outcome 1 with
    | success => rw [o1] at h1; simp [isTransient] at h1
    | apiError c1 =>
        rw [o1] at h1; simp [isTransient] at h1
        cases o2 : outcome 2 with
        | success => rw [o2] at h2; simp [isTransient] at h2
        | apiError c2 =>
            rw [o2] at h2; simp [isTransient] at h2
            cases o3 : outcome 3 with
            | success => rw [o3] at h3; simp [isTransient] at h3
            | apiError c3 =>
                rw [o3] at h3; simp [isTransient] at h3
                refine ⟨?_, ?_, VenueOutcome.apiError c3, ?_, ?_⟩ <;>
                  simp [place_market_order, MAX_RETRIES, placeLoop, o1, o2, o3,
                    h1, h2, h3, RETRY_DELAY_BASE, isTransient]
            | requestError =>
                refine ⟨?_, ?_, VenueOutcome.requestError, ?_, ?_⟩ <;>
                  simp [place_market_order, MAX_RETRIES, placeLoop, o1, o2, o3,
                    h1, h2, RETRY_DELAY_BASE, isTransient]
        | requestError =>
            cases o3 : outcome 3 with
            | success => rw [o3] at h3; simp [isTransient] at h3
            | apiError c3 =>
                rw [o3] at h3; simp [isTransient] at h3
                refine ⟨?_, ?_, VenueOutcome.apiError c3, ?_, ?_⟩ <;>
                  simp [place_market_order, MAX_RETRIES, placeLoop, o1, o2, o3,
                    h1, h3, RETRY_DELAY_BASE, isTransient]
            | requestError =>
                refine ⟨?_, ?_, VenueOutcome.requestError, ?_, ?_⟩ <;>
                  simp [place_market_order, MAX_RETRIES, placeLoop, o1, o2, o3,
                    h1, RETRY_DELAY_BASE, isTransient]
    | requestError =>
        cases o2 : outcome 2 with
        | success => rw [o2] at h2; simp [isTransient] at h2
        | apiError c2 =>
            rw [o2] at h2; simp [isTransient] at h2
            cases o3 : outcome 3 with
            | success => rw [o3] at h3; simp [isTransient] at h3
            | apiError c3 =>
                rw [o3] at h3; simp [isTransient] at h3
                refine ⟨?_, ?_, VenueOutcome.apiError c3, ?_, ?_⟩ <;>
                  simp [place_market_order, MAX_RETRIES, placeLoop, o1, o2, o3,
                    h2, h3, RETRY_DELAY_BASE, isTransient]
            | requestError =>
                refine ⟨?_, ?_, VenueOutcome.requestError, ?_, ?_⟩ <;>
                  simp [place_market_order, MAX_RETRIES, placeLoop, o1, o2, o3,
                    h2, RETRY_DELAY_BASE, isTransient]
        | requestError =>
            cases o3 : outcome 3 with
            | success => rw [o3] at h3; simp [isTransient] at h3
            | apiError c3 =>
                rw [o3] at h3; simp [isTransient] at h3
                refine ⟨?_, ?_, VenueOutcome.apiError c3, ?_, ?_⟩ <;>
                  simp [place_market_order, MAX_RETRIES, placeLoop, o1, o2, o3,
                    h3, RETRY_DELAY_BASE, isTransient]
            | requestError =>
                refine ⟨?_, ?_, VenueOutcome.requestError, ?_, ?_⟩ <;>
                  simp [place_market_order, MAX_RETRIES, placeLoop, o1, o2, o3,
                    RETRY_DELAY_BASE, isTransient]

/-- Witness for C8: a venue that always rejects with code -2010
(insufficient balance) gets exactly one attempt and no backoff; a venue
that always raises a network error gets all 3 attempts with backoff
delays [2, 4]. -/
theorem c8_retry_policy_witness :
    ((-2010 : ℤ) ∈ permanentCodes) ∧
    place_market_order (fun _ => VenueOutcome.apiError (-2010)) =
      ⟨Except.error (VenueOutcome.apiError (-2010)), 1, []⟩ ∧
    (place_market_order (fun _ => VenueOutcome.requestError)).attempts = 3 ∧
    (place_market_order (fun _ => VenueOutcome.requestError)).delays = [2, 4] :=
  ⟨by decide,
   (c8_retry_policy (fun _ => VenueOutcome.apiError (-2010))).2.1 (-2010) rfl (by decide),
   ((c8_retry_policy (fun _ => VenueOutcome.requestError)).2.2.2.2.2
     (by decide) (by decide) (by decide)).1,
   ((c8_retry_policy (fun _ => VenueOutcome.requestError)).2.2.2.2.2
     (by decide) (by decide) (by decide)).2.1⟩

/-- C3 amended: in the backtest exit check stop-loss is tested before
take-profit, so a candle satisfying both conditions resolves to SL; the
live exit checks (`LiveTrader._check_tp_sl` and `OrderManager.check_tp_sl`)
test take-profit first, so a price satisfying both live conditions
resolves to TP. -/
theorem c3_amended :
    (∀ (c : Candle) (pos : Position), c.low ≤ pos.sl_price → pos.tp_price ≤ c.high →
      exitCheck c pos = some (pos.sl_price, "SL")) ∧
    (∀ (lp : ℚ) (q : LTPosition), q.tp_price ≤ lp → lp ≤ q.sl_price →
      ltTpSlReason lp q = some "TP" ∧ omTpSlReason lp q = some "TP") := by
  constructor
  · intro c pos h1 h2
    simp [exitCheck, h1]
  · intro lp q h1 h2
    exact ⟨by simp [ltTpSlReason, h1], by simp [omTpSlReason, h1]⟩

/-- Witness for C3 amended: a candle crossing both levels resolves to SL in
the backtester; a live position meeting both live conditions resolves
to TP. -/
theorem c3_amended_witness :
    exitCheck ⟨1, 0, 50, 200, 100, 0⟩ ⟨0, 100, 1, 150, 60, 0⟩ = some (60, "SL") ∧
    ltTpSlReason 100 ⟨"POS_0002", 100, 1, 90, 110, 0, ""⟩ = some "TP" :=
  ⟨c3_amended.1 ⟨1, 0, 50, 200, 100, 0⟩ ⟨0, 100, 1, 150, 60, 0⟩
      (by norm_num) (by norm_num),
   (c3_amended.2 100 ⟨"POS_0002", 100, 1, 90, 110, 0, ""⟩
      (by norm_num) (by norm_num)).1⟩

/-- C4 amended: position sizing computes the pre-clamp quantity
`equity × risk_per_trade / (entry − sl)` whenever `entry − sl > 0` (100 in
Scenario A, on both paths; the live function then clamps the cost to 95%
of equity, returning 95 there, while the backtest path opened the
pre-clamp quantity 100).  When `entry − sl ≤ 0` the live
`calculate_position_size` does not reject: it takes the absolute stop
distance, returns 0 only when entry = sl, and returns a positive quantity
whenever entry < sl. -/
theorem c4_amended :
    (∀ (rm : RMState) (e s : ℚ), 0 < e - s →
      ¬ rm.current_equity * (95/100) <
          rm.current_equity * rm.risk_per_trade / (e - s) * e →
      rmCalcPositionSize rm e s = rm.current_equity * rm.risk_per_trade / (e - s)) ∧
    (∀ (rm : RMState) (e : ℚ), rmCalcPositionSize rm e e = 0) ∧
    (∀ (rm : RMState) (e s : ℚ), e - s < 0 → 0 < rm.current_equity →
      0 < rm.risk_per_trade → 0 < e → 0 < rmCalcPositionSize rm e s) ∧
    (rmScenario.current_equity * rmScenario.risk_per_trade / ((100:ℚ) - 99) = 100) ∧
    (rmCalcPositionSize rmScenario 100 99 = 95) ∧
    ((runCandles pA (initState pA) [cA]).positions.map Position.quantity = [100]) := by
  refine ⟨?_, ?_, ?_, by norm_num [rmScenario], ?_, ?_⟩
  · intro rm e s h h2
    simp only [rmCalcPositionSize]
    rw [abs_of_pos h, if_neg (not_le.mpr h), if_neg h2]
  · intro rm e
    simp [rmCalcPositionSize]
  · intro rm e s h hce hrp he
    simp only [rmCalcPositionSize]
    rw [abs_of_neg h, if_neg (by linarith : ¬ -(e - s) ≤ 0)]
    split
    · exact div_pos (mul_pos hce (by norm_num)) he
    · exact div_pos (mul_pos hce hrp) (by linarith)
  · norm_num [rmCalcPositionSize, rmScenario, abs_of_nonneg]
  · norm_num [runCandles, stepCandle, updateDailyTracking, checkExits, exitOne, exitCheck,
      checkCircuitBreaker, canOpenTrade, tryOpenPosition, openPosition, positionValue,
      updateEquity, initState, pA, cA, List.foldl]

/-- Witness for C4 amended: with equity 10000 and 1% risk, entry 100 and
stop 50 gives the unclamped pre-clamp quantity `100/50 = 2`; entry 100 and
stop 101 (negative stop distance) gives a positive size instead of 0. -/
theorem c4_amended_witness :
    (0:ℚ) < 100 - 50 ∧
    rmCalcPositionSize rmScenario 100 50 =
      rmScenario.current_equity * rmScenario.risk_per_trade / (100 - 50) ∧
    (100:ℚ) - 101 < 0 ∧ 0 < rmCalcPositionSize rmScenario 100 101 :=
  ⟨by norm_num,
   c4_amended.1 rmScenario 100 50 (by norm_num) (by norm_num [rmScenario]),
   by norm_num,
   c4_amended.2.2.1 rmScenario 100 101 (by norm_num) (by norm_num [rmScenario])
     (by norm_num [rmScenario]) (by norm_num)⟩

/-- C5 amended: each admission path rejects exactly when the breaker is
active, the open-position count has reached max_open_trades, or the
daily-loss test fires; the backtest path and `LiveTrader._can_trade`
divide the daily loss by the current equity, but `RiskManager.can_trade`
divides it by the equity recorded at the last daily rollover
(`_daily_start_equity`), not current equity.  Scenario E holds on the
backtest path: a same-day 3.5% loss blocks the next open, and the date
rollover (which resets daily_pnl) admits the same signal again. -/
theorem c5_amended :
    (∀ (p : BacktestParams) (s : BtState), canOpenTrade p s = false ↔
      (s.circuit_breaker_active = true ∨ p.max_open_trades ≤ s.positions.length ∨
        (0 < s.equity ∧ p.max_daily_loss ≤ |min 0 s.daily_pnl| / s.equity))) ∧
    (∀ t : LTState, ltCanTrade t = false ↔
      (t.circuit_breaker = true ∨ config.MAX_OPEN_TRADES ≤ t.positions.length ∨
        (0 < t.current_equity ∧
          config.MAX_DAILY_LOSS ≤ |min 0 t.daily_pnl| / t.current_equity))) ∧
    (∀ (today : ℕ) (rm : RMState), rmCanTrade today rm = false ↔
      ((rmUpdateDailyTracking today rm).circuit_breaker_active = true ∨
        (rmUpdateDailyTracking today rm).max_open_trades ≤
          (rmUpdateDailyTracking today rm).open_trade_count ∨
        (0 < (rmUpdateDailyTracking today rm).daily_start_equity ∧
          (rmUpdateDailyTracking today rm).max_daily_loss ≤
            |min 0 (rmUpdateDailyTracking today rm).daily_pnl| /
              (rmUpdateDailyTracking today rm).daily_start_equity))) ∧
    canOpenTrade {} sE = false ∧
    canOpenTrade {} (updateDailyTracking sE 1) = true := by
  refine ⟨?_, ?_, ?_, ?_, ?_⟩
  · intro p s
    simp only [canOpenTrade]
    split_ifs with h1 h2 h3 <;> simp_all
  · intro t
    simp only [ltCanTrade]
    split_ifs with h1 h2 h3 <;> simp_all
  · intro today rm
    simp only [rmCanTrade, rmCanTradeS]
    split_ifs with h1 h2 h3 <;> simp_all
  · norm_num [canOpenTrade, sE]
  · have h : updateDailyTracking sE 1 =
        { sE with current_date := some 1, daily_pnl := 0 } := by
      simp [updateDailyTracking, sE]
    rw [h]
    norm_num [canOpenTrade, sE]

/-- `exitOne` never modifies equity, peak equity, the breaker flag or the
stored date. -/
theorem exitOne_preserves (p : BacktestParams) (c : Candle) (s : BtState) (pos : Position) :
    (exitOne p c s pos).equity = s.equity ∧
    (exitOne p c s pos).peak_equity = s.peak_equity ∧
    (exitOne p c s pos).circuit_breaker_active = s.circuit_breaker_active ∧
    (exitOne p c s pos).current_date = s.current_date := by
  unfold exitOne
  cases exitCheck c pos with
  | none => exact ⟨rfl, rfl, rfl, rfl⟩
  | some pr => cases pr with
    | mk price side => exact ⟨rfl, rfl, rfl, rfl⟩

/-- The fold inside `_check_exits` never modifies equity, peak equity, the
breaker flag or the stored date. -/
theorem exitsFold_preserves (p : BacktestParams) (c : Candle) (l : List Position) :
    ∀ acc : BtState,
      (List.foldl (exitOne p c) acc l).equity = acc.equity ∧
      (List.foldl (exitOne p c) acc l).peak_equity = acc.peak_equity ∧
      (List.foldl (exitOne p c) acc l).circuit_breaker_active = acc.circuit_breaker_active ∧
      (List.foldl (exitOne p c) acc l).current_date = acc.current_date := by
  induction l with
  | nil => intro acc; exact ⟨rfl, rfl, rfl, rfl⟩
  | cons pos l ih =>
      intro acc
      have h1 := exitOne_preserves p c acc pos
      have h2 := ih (exitOne p c acc pos)
      exact ⟨h2.1.trans h1.1, h2.2.1.trans h1.2.1,
        h2.2.2.1.trans h1.2.2.1, h2.2.2.2.trans h1.2.2.2⟩

/-- `_check_exits` never modifies equity, peak equity, the breaker flag or
the stored date. -/
theorem checkExits_preserves (p : BacktestParams) (c : Candle) (s : BtState) :
    (checkExits p c s).equity = s.equity ∧
    (checkExits p c s).peak_equity = s.peak_equity ∧
    (checkExits p c s).circuit_breaker_active = s.circuit_breaker_active ∧
    (checkExits p c s).current_date = s.current_date :=
  exitsFold_preserves p c s.positions { s with positions := [] }

/-- `_update_daily_tracking` only touches the stored date and daily P&L. -/
theorem updateDaily_preserves (s : BtState) (d : ℕ) :
    (updateDailyTracking s d).equity = s.equity ∧
    (updateDailyTracking s d).peak_equity = s.peak_equity ∧
    (updateDailyTracking s d).circuit_breaker_active = s.circuit_breaker_active ∧
    (updateDailyTracking s d).positions = s.positions ∧
    (updateDailyTracking s d).cash = s.cash := by
  unfold updateDailyTracking
  split <;> exact ⟨rfl, rfl, rfl, rfl, rfl⟩

/-- `_try_open_position` never modifies the breaker flag. -/
theorem tryOpen_preserves_cb (p : BacktestParams) (c : Candle) (s : BtState) :
    (tryOpenPosition p c s).circuit_breaker_active = s.circuit_breaker_active := by
  simp only [tryOpenPosition, openPosition]
  split_ifs <;> rfl

/-- The breaker flag after `_check_circuit_breaker` is set exactly when it
already was, or the drawdown of the incoming state reaches the
threshold. -/
theorem checkCB_iff (p : BacktestParams) (s : BtState) :
    (checkCircuitBreaker p s).circuit_breaker_active = true ↔
      (s.circuit_breaker_active = true ∨
        (0 < s.peak_equity ∧
          p.circuit_breaker_dd ≤ (s.peak_equity - s.equity) / s.peak_equity)) := by
  unfold checkCircuitBreaker
  split_ifs with h1 h2 h3 <;> simp_all <;> split_ifs <;> simp_all

/-- C7 amended (Scenario B, corrected): the per-candle step order
evaluates the circuit breaker before mark-to-market, so the breaker
decision of a candle is taken from the equity recorded by the previous
candle: after processing a candle the breaker is active iff it already
was on entry, or the state entering the candle already showed a drawdown
at or above the threshold.  Hence in Scenario B (decline 10000 → 8900,
threshold 10%) the breaker is still inactive after the candle on which
equity first reaches ≤ 9000 and becomes active on the next candle. -/
theorem c7_amended :
    (∀ (p : BacktestParams) (s : BtState) (c : Candle),
      (stepCandle p s c).circuit_breaker_active = true ↔
        (s.circuit_breaker_active = true ∨
          (0 < s.peak_equity ∧
            p.circuit_breaker_dd ≤ (s.peak_equity - s.equity) / s.peak_equity))) ∧
    (runCandles p7 (initState p7) [c71, c72]).equity = 8900 ∧
    (runCandles p7 (initState p7) [c71, c72]).circuit_breaker_active = false ∧
    (runCandles p7 (initState p7) [c71, c72, c73]).circuit_breaker_active = true := by
  refine ⟨?_, ?_, ?_, ?_⟩
  · intro p s c
    have hd := updateDaily_preserves s c.date
    have he := checkExits_preserves p c (updateDailyTracking s c.date)
    have hstep : (stepCandle p s c).circuit_breaker_active =
        (checkCircuitBreaker p
          (checkExits p c (updateDailyTracking s c.date))).circuit_breaker_active := by
      simp only [stepCandle, updateEquity]
      split
      · exact tryOpen_preserves_cb p c _
      · rfl
    rw [hstep, checkCB_iff, he.1, he.2.1, he.2.2.1, hd.1, hd.2.1, hd.2.2.1]
  · norm_num [runCandles, stepCandle, updateDailyTracking, checkExits, exitOne, exitCheck,
      checkCircuitBreaker, canOpenTrade, tryOpenPosition, openPosition, positionValue,
      updateEquity, initState, p7, c71, c72, c73, List.foldl]
  · norm_num [runCandles, stepCandle, updateDailyTracking, checkExits, exitOne, exitCheck,
      checkCircuitBreaker, canOpenTrade, tryOpenPosition, openPosition, positionValue,
      updateEquity, initState, p7, c71, c72, c73, List.foldl]
  · norm_num [runCandles, stepCandle, updateDailyTracking, checkExits, exitOne, exitCheck,
      checkCircuitBreaker, canOpenTrade, tryOpenPosition, openPosition, positionValue,
      updateEquity, initState, p7, c71, c72, c73, List.foldl]

/-- `_check_circuit_breaker` only ever touches the breaker flag. -/
theorem checkCB_preserves (p : BacktestParams) (s : BtState) :
    (checkCircuitBreaker p s).positions = s.positions ∧
    (checkCircuitBreaker p s).cash = s.cash ∧
    (checkCircuitBreaker p s).equity = s.equity ∧
    (checkCircuitBreaker p s).peak_equity = s.peak_equity ∧
    (checkCircuitBreaker p s).daily_pnl = s.daily_pnl ∧
    (checkCircuitBreaker p s).current_date = s.current_date := by
  simp only [checkCircuitBreaker]
  split_ifs <;> exact ⟨rfl, rfl, rfl, rfl, rfl, rfl⟩

/-- Each position processed by the exit fold adds at most one kept
position. -/
theorem exitsFold_length (p : BacktestParams) (c : Candle) (l : List Position) :
    ∀ acc : BtState, (List.foldl (exitOne p c) acc l).positions.length ≤
      acc.positions.length + l.length := by
  induction l with
  | nil => intro acc; simp
  | cons pos l ih =>
      intro acc
      have h1 : (exitOne p c acc pos).positions.length ≤ acc.positions.length + 1 := by
        unfold exitOne
        cases exitCheck c pos with
        | none => simp
        | some pr => cases pr with
          | mk a b => simp [Nat.le_succ]
      have h2 := ih (exitOne p c acc pos)
      simp only [List.foldl_cons, List.length_cons]
      omega

/-- `_check_exits` never increases the number of open positions. -/
theorem checkExits_length (p : BacktestParams) (c : Candle) (s : BtState) :
    (checkExits p c s).positions.length ≤ s.positions.length := by
  have h := exitsFold_length p c s.positions { s with positions := [] }
  simpa [checkExits] using h

/-- An admitted open requires strictly fewer open positions than
max_open_trades. -/
theorem canOpen_length_lt (p : BacktestParams) (s : BtState)
    (h : canOpenTrade p s = true) : s.positions.length < p.max_open_trades := by
  unfold canOpenTrade at h
  split_ifs at h with h1 h2 h3 <;> simp_all <;> omega

/-- `_try_open_position` keeps the open-position count within
max_open_trades. -/
theorem tryOpen_length (p : BacktestParams) (c : Candle) (s : BtState)
    (h : s.positions.length ≤ p.max_open_trades) :
    (tryOpenPosition p c s).positions.length ≤ p.max_open_trades := by
  simp only [tryOpenPosition, openPosition]
  split_ifs with h1 h2 h3 h4 <;>
    first
      | exact h
      | (simp only [List.length_append, List.length_cons, List.length_nil];
         have hlt := canOpen_length_lt p s h1; omega)

/-- One candle step keeps the open-position count within
max_open_trades. -/
theorem stepCandle_length (p : BacktestParams) (c : Candle) (s : BtState)
    (h : s.positions.length ≤ p.max_open_trades) :
    (stepCandle p s c).positions.length ≤ p.max_open_trades := by
  have h1 : (updateDailyTracking s c.date).positions.length ≤ p.max_open_trades := by
    rw [(updateDaily_preserves s c.date).2.2.2.1]; exact h
  have h2 : (checkExits p c (updateDailyTracking s c.date)).positions.length ≤
      p.max_open_trades :=
    le_trans (checkExits_length p c _) h1
  have h3 : (checkCircuitBreaker p
      (checkExits p c (updateDailyTracking s c.date))).positions.length ≤
      p.max_open_trades := by
    rw [(checkCB_preserves p _).1]; exact h2
  have h4 : (if c.signal = 1 then
      tryOpenPosition p c
        (checkCircuitBreaker p (checkExits p c (updateDailyTracking s c.date)))
      else
        checkCircuitBreaker p
          (checkExits p c (updateDailyTracking s c.date))).positions.length ≤
      p.max_open_trades := by
    split
    · exact tryOpen_length p c _ h3
    · exact h3
  exact h4

/-- The candle loop keeps the open-position count within max_open_trades. -/
theorem runCandles_length (p : BacktestParams) (cs : List Candle) :
    ∀ s : BtState, s.positions.length ≤ p.max_open_trades →
      (runCandles p s cs).positions.length ≤ p.max_open_trades := by
  induction cs with
  | nil => intro s h; exact h
  | cons c cs ih =>
      intro s h
      exact ih (stepCandle p s c) (stepCandle_length p c s h)

/-- `_update_daily_tracking` on the risk manager only touches the stored
date, daily P&L and day-start equity. -/
theorem rmUpdateDaily_preserves (today : ℕ) (rm : RMState) :
    (rmUpdateDailyTracking today rm).open_trade_count = rm.open_trade_count ∧
    (rmUpdateDailyTracking today rm).max_open_trades = rm.max_open_trades ∧
    (rmUpdateDailyTracking today rm).circuit_breaker_active = rm.circuit_breaker_active ∧
    (rmUpdateDailyTracking today rm).current_equity = rm.current_equity ∧
    (rmUpdateDailyTracking today rm).peak_equity = rm.peak_equity := by
  unfold rmUpdateDailyTracking
  split <;> exact ⟨rfl, rfl, rfl, rfl, rfl⟩

/-- A `can_trade` pass requires strictly fewer open trades than
max_open_trades. -/
theorem rmCanTrade_count_lt (today : ℕ) (rm : RMState)
    (h : (rmCanTradeS today rm).1 = true) :
    (rmUpdateDailyTracking today rm).open_trade_count <
      (rmUpdateDailyTracking today rm).max_open_trades := by
  simp only [rmCanTradeS] at h
  split_ifs at h with h1 h2 h3 <;> simp_all <;> omega

/-- C1: the number of open positions never exceeds max_open_trades: after
every prefix of candles of a backtest run, after a full run (forced close
included), and across the live admission step, where an open is attempted
only when `can_trade` passes and each filled open adds exactly one to the
open-trade count. -/
theorem c1_max_open_trades (p : BacktestParams) (cs : List Candle) (n : ℕ) :
    (runCandles p (initState p) (cs.take n)).positions.length ≤ p.max_open_trades ∧
    (runBacktest p cs).positions.length ≤ p.max_open_trades ∧
    (∀ (today : ℕ) (rm : RMState) (filled : Bool),
      rm.open_trade_count ≤ rm.max_open_trades →
      (rmOpenAttempt today rm filled).open_trade_count ≤
        (rmOpenAttempt today rm filled).max_open_trades) := by
  refine ⟨runCandles_length p (cs.take n) (initState p) (Nat.zero_le _), ?_, ?_⟩
  · unfold runBacktest
    cases hl : cs.getLast? with
    | none => exact runCandles_length p cs (initState p) (Nat.zero_le _)
    | some c => simp [closeAllPositions]
  · intro today rm filled h
    have hsnd : (rmCanTradeS today rm).2 = rmUpdateDailyTracking today rm := rfl
    have hpres := rmUpdateDaily_preserves today rm
    simp only [rmOpenAttempt]
    by_cases hv : (rmCanTradeS today rm).1 = true
    · rw [if_pos hv]
      have hlt := rmCanTrade_count_lt today rm hv
      cases filled with
      | true =>
          rw [if_pos rfl, hsnd]
          simp only [rmTradeOpened]
          omega
      | false =>
          rw [if_neg (by simp), hsnd]
          omega
    · rw [if_neg hv, hsnd]
      rw [hpres.1, hpres.2.1]
      exact h

/-- Witness for C1: a fresh risk manager with 0 open trades admits and
records one open, staying within the limit; the empty backtest prefix has
0 ≤ 3 open positions. -/
theorem c1_max_open_trades_witness :
    rmScenario.open_trade_count ≤ rmScenario.max_open_trades ∧
    (rmOpenAttempt 0 rmScenario true).open_trade_count ≤
      (rmOpenAttempt 0 rmScenario true).max_open_trades ∧
    (runCandles ({} : BacktestParams) (initState {})
      (List.take 0 [])).positions.length ≤ ({} : BacktestParams).max_open_trades :=
  ⟨by norm_num [rmScenario],
   (c1_max_open_trades {} [] 0).2.2 0 rmScenario true (by norm_num [rmScenario]),
   (c1_max_open_trades {} [] 0).1⟩

/-- `_check_circuit_breaker` never clears an active breaker. -/
theorem checkCB_cb_true (p : BacktestParams) (s : BtState)
    (h : s.circuit_breaker_active = true) :
    (checkCircuitBreaker p s).circuit_breaker_active = true := by
  simp only [checkCircuitBreaker]
  split_ifs <;> simp_all

/-- With the breaker active, `_try_open_position` is a no-op. -/
theorem tryOpen_cbtrue_noop (p : BacktestParams) (c : Candle) (s : BtState)
    (h : s.circuit_breaker_active = true) :
    tryOpenPosition p c s = s := by
  have hc : canOpenTrade p s = false := by simp [canOpenTrade, h]
  simp [tryOpenPosition, hc]

/-- With the breaker active on entry, a candle step equals the step with
the buy-signal branch removed, and the breaker stays active. -/
theorem stepCandle_cb (p : BacktestParams) (s : BtState) (c : Candle)
    (h : s.circuit_breaker_active = true) :
    stepCandle p s c = stepCandleNoOpen p s c ∧
    (stepCandle p s c).circuit_breaker_active = true := by
  have hd := (updateDaily_preserves s c.date).2.2.1
  have he := (checkExits_preserves p c (updateDailyTracking s c.date)).2.2.1
  have h3 : (checkCircuitBreaker p
      (checkExits p c (updateDailyTracking s c.date))).circuit_breaker_active = true :=
    checkCB_cb_true p _ (by rw [he, hd]; exact h)
  have h4 : (if c.signal = 1 then
      tryOpenPosition p c
        (checkCircuitBreaker p (checkExits p c (updateDailyTracking s c.date)))
      else
        checkCircuitBreaker p
          (checkExits p c (updateDailyTracking s c.date))) =
      checkCircuitBreaker p (checkExits p c (updateDailyTracking s c.date)) := by
    split
    · exact tryOpen_cbtrue_noop p c _ h3
    · rfl
  constructor
  · simp only [stepCandle, stepCandleNoOpen, h4]
  · show (if c.signal = 1 then
        tryOpenPosition p c
          (checkCircuitBreaker p (checkExits p c (updateDailyTracking s c.date)))
        else
          checkCircuitBreaker p
            (checkExits p c (updateDailyTracking s c.date))).circuit_breaker_active = true
    rw [h4]
    exact h3

/-- With the breaker active, the remainder of the candle loop behaves as
if the open branch were deleted, and the breaker stays active. -/
theorem runCandles_cb_latch (p : BacktestParams) (cs : List Candle) :
    ∀ s : BtState, s.circuit_breaker_active = true →
      (runCandles p s cs).circuit_breaker_active = true ∧
      runCandles p s cs = List.foldl (stepCandleNoOpen p) s cs := by
  induction cs with
  | nil => intro s h; exact ⟨h, rfl⟩
  | cons c cs ih =>
      intro s h
      have hstep := stepCandle_cb p s c h
      have ihs := ih (stepCandle p s c) hstep.2
      refine ⟨ihs.1, ?_⟩
      calc List.foldl (stepCandle p) s (c :: cs)
          = List.foldl (stepCandleNoOpen p) (stepCandle p s c) cs := ihs.2
        _ = List.foldl (stepCandleNoOpen p) (stepCandleNoOpen p s c) cs := by
              rw [hstep.1]
        _ = List.foldl (stepCandleNoOpen p) s (c :: cs) := rfl

/-- `closeOne` never modifies the breaker flag, equity or peak equity. -/
theorem closeOne_preserves (p : BacktestParams) (c : Candle) (s : BtState) (pos : Position) :
    (closeOne p c s pos).circuit_breaker_active = s.circuit_breaker_active ∧
    (closeOne p c s pos).equity = s.equity ∧
    (closeOne p c s pos).peak_equity = s.peak_equity ∧
    (closeOne p c s pos).positions = s.positions :=
  ⟨rfl, rfl, rfl, rfl⟩

/-- The forced-close fold never modifies the breaker flag or peak
equity. -/
theorem closeFold_preserves (p : BacktestParams) (c : Candle) (l : List Position) :
    ∀ acc : BtState,
      (List.foldl (closeOne p c) acc l).circuit_breaker_active =
        acc.circuit_breaker_active ∧
      (List.foldl (closeOne p c) acc l).peak_equity = acc.peak_equity := by
  induction l with
  | nil => intro acc; exact ⟨rfl, rfl⟩
  | cons pos l ih =>
      intro acc
      have h1 := closeOne_preserves p c acc pos
      have h2 := ih (closeOne p c acc pos)
      exact ⟨h2.1.trans h1.1, h2.2.trans h1.2.2.1⟩

/-- `_close_all_positions` never modifies the breaker flag or peak
equity. -/
theorem closeAll_preserves (p : BacktestParams) (c : Candle) (s : BtState) :
    (closeAllPositions p c s).circuit_breaker_active = s.circuit_breaker_active ∧
    (closeAllPositions p c s).peak_equity = s.peak_equity := by
  simp only [closeAllPositions]
  exact closeFold_preserves p c s.positions s

/-- C2: the circuit breaker is a one-way latch: `_check_circuit_breaker`
sets it when the drawdown reaches the threshold, no operation of a run
(candle steps or the forced close) ever clears it, and once it is active
every remaining candle of the run behaves exactly as if the open branch
were absent — no further position open occurs. -/
theorem c2_circuit_breaker_latch (p : BacktestParams) (s : BtState) (cs : List Candle)
    (c : Candle) (h : s.circuit_breaker_active = true) :
    (runCandles p s cs).circuit_breaker_active = true ∧
    runCandles p s cs = List.foldl (stepCandleNoOpen p) s cs ∧
    (closeAllPositions p c (runCandles p s cs)).circuit_breaker_active = true ∧
    (∀ s2 : BtState, 0 < s2.peak_equity →
      p.circuit_breaker_dd ≤ (s2.peak_equity - s2.equity) / s2.peak_equity →
      (checkCircuitBreaker p s2).circuit_breaker_active = true) := by
  have hl := runCandles_cb_latch p cs s h
  refine ⟨hl.1, hl.2, ?_, ?_⟩
  · rw [(closeAll_preserves p c (runCandles p s cs)).1]
    exact hl.1
  · intro s2 h1 h2
    exact (checkCB_iff p s2).mpr (Or.inr ⟨h1, h2⟩)

/-- Witness for C2: from a state with the breaker active, one candle with a
buy signal leaves the breaker active and opens nothing. -/
theorem c2_circuit_breaker_latch_witness :
    (⟨10000, 10000, 10000, [], [], [], true, none, 0⟩ : BtState).circuit_breaker_active
      = true ∧
    (runCandles p7 ⟨10000, 10000, 10000, [], [], [], true, none, 0⟩
      [c71]).circuit_breaker_active = true ∧
    runCandles p7 ⟨10000, 10000, 10000, [], [], [], true, none, 0⟩ [c71] =
      List.foldl (stepCandleNoOpen p7)
        ⟨10000, 10000, 10000, [], [], [], true, none, 0⟩ [c71] :=
  ⟨rfl,
   (c2_circuit_breaker_latch p7 ⟨10000, 10000, 10000, [], [], [], true, none, 0⟩
     [c71] c71 rfl).1,
   (c2_circuit_breaker_latch p7 ⟨10000, 10000, 10000, [], [], [], true, none, 0⟩
     [c71] c71 rfl).2.1⟩

/-- The exit price resolved by the backtest exit test is one of the
position's TP/SL levels, hence nonnegative for a well-formed position. -/
theorem exitCheck_price_nonneg (c : Candle) (pos : Position) (h : PosOk pos)
    (price : ℚ) (side : String) (hex : exitCheck c pos = some (price, side)) :
    0 ≤ price := by
  unfold exitCheck at hex
  split_ifs at hex
  · simp only [Option.some.injEq, Prod.mk.injEq] at hex
    rw [← hex.1]; exact h.2.2
  · simp only [Option.some.injEq, Prod.mk.injEq] at hex
    rw [← hex.1]; exact h.2.1

/-- Closing or keeping one position keeps cash nonnegative and the kept
positions well formed. -/
theorem exitOne_inv (p : BacktestParams) (c : Candle) (hp : GoodParams p)
    (s : BtState) (pos : Position) (h1 : 0 ≤ s.cash)
    (h2 : ∀ q ∈ s.positions, PosOk q) (hpos : PosOk pos) :
    0 ≤ (exitOne p c s pos).cash ∧ ∀ q ∈ (exitOne p c s pos).positions, PosOk q := by
  obtain ⟨hf0, hf1, hs0, hs1, _, _, _, _, _⟩ := hp
  unfold exitOne
  cases hex : exitCheck c pos with
  | none =>
      refine ⟨h1, ?_⟩
      intro q hq
      rcases List.mem_append.mp hq with hq | hq
      · exact h2 q hq
      · rw [List.mem_singleton] at hq; subst hq; exact hpos
  | some pr =>
      obtain ⟨price, side⟩ := pr
      have hprice : 0 ≤ price := exitCheck_price_nonneg c pos hpos price side hex
      dsimp only
      refine ⟨?_, h2⟩
      have hq : 0 ≤ pos.quantity := hpos.1
      have hep : 0 ≤ price * (1 - p.slippage) := mul_nonneg hprice (by linarith)
      have hterm : 0 ≤ price * (1 - p.slippage) * pos.quantity * (1 - p.trading_fee) := by
        apply mul_nonneg (mul_nonneg hep hq)
        linarith
      have hrw : price * (1 - p.slippage) * pos.quantity -
          price * (1 - p.slippage) * pos.quantity * p.trading_fee =
          price * (1 - p.slippage) * pos.quantity * (1 - p.trading_fee) := by ring
      linarith

/-- The exit fold keeps cash nonnegative and all positions well formed. -/
theorem exitsFold_inv (p : BacktestParams) (c : Candle) (hp : GoodParams p)
    (l : List Position) :
    ∀ acc : BtState, 0 ≤ acc.cash → (∀ q ∈ acc.positions, PosOk q) →
      (∀ q ∈ l, PosOk q) →
      0 ≤ (List.foldl (exitOne p c) acc l).cash ∧
      ∀ q ∈ (List.foldl (exitOne p c) acc l).positions, PosOk q := by
  induction l with
  | nil => intro acc h1 h2 _; exact ⟨h1, h2⟩
  | cons pos l ih =>
      intro acc h1 h2 h3
      have hpos : PosOk pos := h3 pos (List.mem_cons_self pos l)
      have hstep := exitOne_inv p c hp acc pos h1 h2 hpos
      exact ih (exitOne p c acc pos) hstep.1 hstep.2
        (fun q hq => h3 q (List.mem_cons_of_mem pos hq))

/-- A portfolio of well-formed positions has nonnegative value at a
nonnegative price. -/
theorem posValue_nonneg (l : List Position) (price : ℚ) (hprice : 0 ≤ price)
    (h : ∀ q ∈ l, PosOk q) : 0 ≤ positionValue l price := by
  unfold positionValue
  induction l with
  | nil => simp
  | cons pos l ih =>
      simp only [List.map_cons, List.sum_cons]
      have hpos := h pos (List.mem_cons_self pos l)
      have hrest := ih (fun q hq => h q (List.mem_cons_of_mem pos hq))
      have hterm : 0 ≤ pos.quantity * price := mul_nonneg hpos.1 hprice
      linarith

/-- `_try_open_position` never modifies equity or peak equity. -/
theorem tryOpen_preserves_eq (p : BacktestParams) (c : Candle) (s : BtState) :
    (tryOpenPosition p c s).equity = s.equity ∧
    (tryOpenPosition p c s).peak_equity = s.peak_equity := by
  simp only [tryOpenPosition, openPosition]
  split_ifs <;> exact ⟨rfl, rfl⟩


/-- `_try_open_position` keeps cash nonnegative and all positions well
formed (the capital clamp never lets cash go negative). -/
theorem tryOpen_inv (p : BacktestParams) (c : Candle) (hp : GoodParams p)
    (s : BtState) (hclose : 0 ≤ c.close) (h1 : 0 ≤ s.cash) (he : 0 ≤ s.equity)
    (h2 : ∀ q ∈ s.positions, PosOk q) :
    0 ≤ (tryOpenPosition p c s).cash ∧
    ∀ q ∈ (tryOpenPosition p c s).positions, PosOk q := by
  obtain ⟨hf0, hf1, hs0, hs1, hr0, htp0, hsl0, hsl1, hic⟩ := hp
  have hentry : 0 ≤ c.close * (1 + p.slippage) := mul_nonneg hclose (by linarith)
  have htp : 0 ≤ c.close * (1 + p.slippage) * (1 + p.tp_pct) :=
    mul_nonneg hentry (by linarith)
  have hsl : 0 ≤ c.close * (1 + p.slippage) * (1 - p.sl_pct) :=
    mul_nonneg hentry (by linarith)
  unfold tryOpenPosition openPosition
  split
  · exact ⟨h1, h2⟩
  · dsimp only
    split
    · exact ⟨h1, h2⟩
    · next hsd =>
        have hsd2 := lt_of_not_le hsd
        split
        · next hcl =>
            split
            · exact ⟨h1, h2⟩
            · next hq2 =>
                have hq2p := lt_of_not_le hq2
                have hne : c.close * (1 + p.slippage) * (1 + p.trading_fee) ≠ 0 := by
                  intro h0
                  rw [h0, div_zero] at hq2
                  exact hq2 le_rfl
                constructor
                · dsimp only
                  have hz : s.cash -
                      (c.close * (1 + p.slippage) *
                          (s.cash / (c.close * (1 + p.slippage) * (1 + p.trading_fee))) +
                        c.close * (1 + p.slippage) *
                            (s.cash /
                              (c.close * (1 + p.slippage) * (1 + p.trading_fee))) *
                          p.trading_fee) = 0 := by
                    field_simp
                    ring
                  exact le_of_eq hz.symm
                · intro q hq
                  rcases List.mem_append.mp hq with hq | hq
                  · exact h2 q hq
                  · rw [List.mem_singleton] at hq; subst hq
                    exact ⟨le_of_lt hq2p, htp, hsl⟩
        · next hcl =>
            have hcl2 := le_of_not_lt hcl
            constructor
            · dsimp only
              linarith
            · intro q hq
              rcases List.mem_append.mp hq with hq | hq
              · exact h2 q hq
              · rw [List.mem_singleton] at hq; subst hq
                refine ⟨?_, htp, hsl⟩
                exact div_nonneg (mul_nonneg he hr0) (le_of_lt hsd2)

/-- One candle step preserves the numeric state invariant. -/
theorem stepCandle_inv (p : BacktestParams) (c : Candle) (hp : GoodParams p)
    (hclose : 0 ≤ c.close) (s : BtState) (h : BtInv s) :
    BtInv (stepCandle p s c) := by
  obtain ⟨h1, he, h2⟩ := h
  have hd := updateDaily_preserves s c.date
  -- invariant after the daily roll
  have i1cash : 0 ≤ (updateDailyTracking s c.date).cash := by rw [hd.2.2.2.2]; exact h1
  have i1eq : 0 ≤ (updateDailyTracking s c.date).equity := by rw [hd.1]; exact he
  have i1pos : ∀ q ∈ (updateDailyTracking s c.date).positions, PosOk q := by
    rw [hd.2.2.2.1]; exact h2
  -- invariant after the exit check
  have i2 := exitsFold_inv p c hp (updateDailyTracking s c.date).positions
    { updateDailyTracking s c.date with positions := [] } i1cash (by simp) i1pos
  have he2 := checkExits_preserves p c (updateDailyTracking s c.date)
  have i2eq : 0 ≤ (checkExits p c (updateDailyTracking s c.date)).equity := by
    rw [he2.1]; exact i1eq
  -- invariant after the breaker check
  have hc3 := checkCB_preserves p (checkExits p c (updateDailyTracking s c.date))
  have i3cash : 0 ≤ (checkCircuitBreaker p
      (checkExits p c (updateDailyTracking s c.date))).cash := by
    rw [hc3.2.1]; exact i2.1
  have i3eq : 0 ≤ (checkCircuitBreaker p
      (checkExits p c (updateDailyTracking s c.date))).equity := by
    rw [hc3.2.2.1]; exact i2eq
  have i3pos : ∀ q ∈ (checkCircuitBreaker p
      (checkExits p c (updateDailyTracking s c.date))).positions, PosOk q := by
    rw [hc3.1]; exact i2.2
  -- invariant after the signal-gated open
  have i4 : 0 ≤ (if c.signal = 1 then
        tryOpenPosition p c
          (checkCircuitBreaker p (checkExits p c (updateDailyTracking s c.date)))
      else
        checkCircuitBreaker p
          (checkExits p c (updateDailyTracking s c.date))).cash ∧
      ∀ q ∈ (if c.signal = 1 then
        tryOpenPosition p c
          (checkCircuitBreaker p (checkExits p c (updateDailyTracking s c.date)))
      else
        checkCircuitBreaker p
          (checkExits p c (updateDailyTracking s c.date))).positions, PosOk q := by
    split
    · exact tryOpen_inv p c ⟨hp.1, hp.2.1, hp.2.2.1, hp.2.2.2.1, hp.2.2.2.2.1,
        hp.2.2.2.2.2.1, hp.2.2.2.2.2.2.1, hp.2.2.2.2.2.2.2.1, hp.2.2.2.2.2.2.2.2⟩
        _ hclose i3cash i3eq i3pos
    · exact ⟨i3cash, i3pos⟩
  -- mark-to-market re-establishes the invariant
  refine ⟨i4.1, ?_, i4.2⟩
  show 0 ≤ _ + positionValue _ c.close
  have := posValue_nonneg _ c.close hclose i4.2
  linarith [i4.1]

/-- After a candle step, equity never exceeds peak equity (mark-to-market
takes the running maximum). -/
theorem stepCandle_peak (p : BacktestParams) (s : BtState) (c : Candle) :
    (stepCandle p s c).equity ≤ (stepCandle p s c).peak_equity := by
  simp only [stepCandle, updateEquity]
  exact le_max_right _ _

/-- After a candle step, equity equals cash plus the open-position value at
that candle's close. -/
theorem stepCandle_mark (p : BacktestParams) (s : BtState) (c : Candle) :
    (stepCandle p s c).equity =
      (stepCandle p s c).cash +
        positionValue (stepCandle p s c).positions c.close := rfl

/-- A candle step never decreases peak equity. -/
theorem stepCandle_peak_mono (p : BacktestParams) (s : BtState) (c : Candle) :
    s.peak_equity ≤ (stepCandle p s c).peak_equity := by
  have hd := (updateDaily_preserves s c.date).2.1
  have he := (checkExits_preserves p c (updateDailyTracking s c.date)).2.1
  have hc := (checkCB_preserves p
    (checkExits p c (updateDailyTracking s c.date))).2.2.2.1
  have h4 : (if c.signal = 1 then
      tryOpenPosition p c
        (checkCircuitBreaker p (checkExits p c (updateDailyTracking s c.date)))
      else
        checkCircuitBreaker p
          (checkExits p c (updateDailyTracking s c.date))).peak_equity =
      s.peak_equity := by
    split
    · rw [(tryOpen_preserves_eq p c _).2, hc, he, hd]
    · rw [hc, he, hd]
  simp only [stepCandle, updateEquity]
  rw [h4]
  exact le_max_left _ _

/-- The invariant holds along the whole candle loop. -/
theorem runCandles_inv (p : BacktestParams) (hp : GoodParams p) (cs : List Candle) :
    ∀ s : BtState, BtInv s → (∀ c ∈ cs, 0 ≤ c.close) →
      BtInv (runCandles p s cs) := by
  induction cs with
  | nil => intro s h _; exact h
  | cons c cs ih =>
      intro s h hcs
      exact ih (stepCandle p s c)
        (stepCandle_inv p c hp (hcs c (List.mem_cons_self c cs)) s h)
        (fun d hd => hcs d (List.mem_cons_of_mem c hd))

/-- Equity stays below peak equity along the whole candle loop. -/
theorem runCandles_peak_ge (p : BacktestParams) (cs : List Candle) :
    ∀ s : BtState, s.equity ≤ s.peak_equity →
      (runCandles p s cs).equity ≤ (runCandles p s cs).peak_equity := by
  induction cs with
  | nil => intro s h; exact h
  | cons c cs ih => intro s _; exact ih (stepCandle p s c) (stepCandle_peak p s c)

/-- Peak equity is non-decreasing along the whole candle loop. -/
theorem runCandles_peak_mono (p : BacktestParams) (cs : List Candle) :
    ∀ s : BtState, s.peak_equity ≤ (runCandles p s cs).peak_equity := by
  induction cs with
  | nil => intro s; exact le_refl _
  | cons c cs ih =>
      intro s
      exact le_trans (stepCandle_peak_mono p s c) (ih (stepCandle p s c))

/-- The forced-close fold credits at most the marked-to-market value of
the closed positions (exit slippage and fees only reduce the credit). -/
theorem closeFold_cash (p : BacktestParams) (c : Candle) (hp : GoodParams p)
    (hclose : 0 ≤ c.close) (l : List Position) :
    ∀ acc : BtState, (∀ q ∈ l, PosOk q) →
      (List.foldl (closeOne p c) acc l).cash ≤ acc.cash + positionValue l c.close := by
  obtain ⟨hf0, hf1, hs0, hs1, _, _, _, _, _⟩ := hp
  induction l with
  | nil => intro acc _; simp [positionValue]
  | cons pos l ih =>
      intro acc h
      have hpos := h pos (List.mem_cons_self pos l)
      have hq := hpos.1
      have hstep : (closeOne p c acc pos).cash ≤ acc.cash + pos.quantity * c.close := by
        simp only [closeOne]
        have ha : 0 ≤ c.close * pos.quantity * (p.slippage * (1 - p.trading_fee)) :=
          mul_nonneg (mul_nonneg hclose hq) (mul_nonneg hs0 (by linarith))
        have hb : 0 ≤ c.close * pos.quantity * p.trading_fee :=
          mul_nonneg (mul_nonneg hclose hq) hf0
        have hexp : pos.quantity * c.close -
            (c.close * (1 - p.slippage) * pos.quantity -
              c.close * (1 - p.slippage) * pos.quantity * p.trading_fee) =
            c.close * pos.quantity * (p.slippage * (1 - p.trading_fee)) +
              c.close * pos.quantity * p.trading_fee := by ring
        linarith
      have ihs := ih (closeOne p c acc pos) (fun q hq2 => h q (List.mem_cons_of_mem pos hq2))
      simp only [List.foldl_cons, positionValue, List.map_cons, List.sum_cons] at *
      linarith

/-- Forced close at the final candle cannot lift equity above the peak:
if equity was marked to market at that candle's close and stayed below
peak, it remains below peak after the close. -/
theorem closeAll_peak_ge (p : BacktestParams) (c : Candle) (hp : GoodParams p)
    (hclose : 0 ≤ c.close) (s : BtState)
    (hpos : ∀ q ∈ s.positions, PosOk q)
    (heq : s.equity = s.cash + positionValue s.positions c.close)
    (hpeak : s.equity ≤ s.peak_equity) :
    (closeAllPositions p c s).equity ≤ (closeAllPositions p c s).peak_equity := by
  have hcash := closeFold_cash p c hp hclose s.positions s hpos
  have hpk := (closeFold_preserves p c s.positions s).2
  show (List.foldl (closeOne p c) s s.positions).cash ≤
    (List.foldl (closeOne p c) s s.positions).peak_equity
  rw [hpk]
  linarith

/-- A full backtest run (forced close included) ends with equity at or
below peak equity. -/
theorem runBacktest_peak_ge (p : BacktestParams) (hp : GoodParams p)
    (cs : List Candle) (hcs : ∀ c ∈ cs, 0 ≤ c.close) :
    (runBacktest p cs).equity ≤ (runBacktest p cs).peak_equity := by
  rcases List.eq_nil_or_concat cs with rfl | ⟨l, c, rfl⟩
  · simp [runBacktest, runCandles, initState]
  · rw [List.concat_eq_append] at hcs ⊢
    have hgl : (l ++ [c]).getLast? = some c := by
      simp [List.getLast?_concat]
    have hrun : runCandles p (initState p) (l ++ [c]) =
        stepCandle p (runCandles p (initState p) l) c := by
      simp [runCandles, List.foldl_append]
    have hinv : BtInv (runCandles p (initState p) (l ++ [c])) := by
      refine runCandles_inv p hp (l ++ [c]) (initState p) ?_ hcs
      exact ⟨hp.2.2.2.2.2.2.2.2, hp.2.2.2.2.2.2.2.2, by simp [initState]⟩
    have hpeak : (runCandles p (initState p) (l ++ [c])).equity ≤
        (runCandles p (initState p) (l ++ [c])).peak_equity :=
      runCandles_peak_ge p (l ++ [c]) (initState p) (le_refl _)
    have hmark : (runCandles p (initState p) (l ++ [c])).equity =
        (runCandles p (initState p) (l ++ [c])).cash +
          positionValue (runCandles p (initState p) (l ++ [c])).positions c.close := by
      rw [hrun]
      exact stepCandle_mark p (runCandles p (initState p) l) c
    have hc : 0 ≤ c.close := hcs c (by simp)
    have := closeAll_peak_ge p c hp hc (runCandles p (initState p) (l ++ [c]))
      hinv.2.2 hmark hpeak
    simpa [runBacktest, hgl] using this

/-- C6: peak_equity is a running maximum of equity: at every equity
snapshot of a run (every candle prefix) peak_equity ≥ equity; peak_equity
is monotonically non-decreasing across the candle loop from any state and
is untouched by the forced close; and at the end of a full run (forced
close included) equity still does not exceed peak_equity. -/
theorem c6_peak_equity (p : BacktestParams) (cs : List Candle) (n : ℕ)
    (s0 : BtState) (c0 : Candle) (hp : GoodParams p)
    (hcs : ∀ c ∈ cs, 0 ≤ c.close) :
    ((runCandles p (initState p) (cs.take n)).equity ≤
      (runCandles p (initState p) (cs.take n)).peak_equity) ∧
    (s0.peak_equity ≤ (runCandles p s0 cs).peak_equity) ∧
    ((closeAllPositions p c0 s0).peak_equity = s0.peak_equity) ∧
    ((runBacktest p cs).equity ≤ (runBacktest p cs).peak_equity) :=
  ⟨runCandles_peak_ge p (cs.take n) (initState p) (le_refl _),
   runCandles_peak_mono p cs s0,
   (closeAll_preserves p c0 s0).2,
   runBacktest_peak_ge p hp cs hcs⟩

/-- Witness for C6 at the Scenario A configuration with a single candle. -/
theorem c6_peak_equity_witness :
    GoodParams pA ∧
    (runCandles pA (initState pA) (List.take 1 [cA])).equity ≤
      (runCandles pA (initState pA) (List.take 1 [cA])).peak_equity ∧
    (runBacktest pA [cA]).equity ≤ (runBacktest pA [cA]).peak_equity :=
  ⟨by norm_num [GoodParams, pA],
   (c6_peak_equity pA [cA] 1 (initState pA) cA (by norm_num [GoodParams, pA])
      (by intro c hc; simp only [List.mem_singleton] at hc; subst hc;
          norm_num [cA])).1,
   (c6_peak_equity pA [cA] 1 (initState pA) cA (by norm_num [GoodParams, pA])
      (by intro c hc; simp only [List.mem_singleton] at hc; subst hc;
          norm_num [cA])).2.2.2⟩
